import Mathlib

/-!
Verification development for the quasiparticle (GW) post-processing module
`abipy/electrons/gw.py`: the `QPState` record, the `QPList` container with
its sort/merge operations, `QPList.build_scissors` (piecewise scissors
construction), and the error-handling skeleton of `SigresFile.interpolate`.

Real numbers handled by the Python code (KS energies, matrix elements) are
embedded as exact rationals: every operation modelled here only compares,
sorts, slices or copies these values, so the embedding is faithful for the
properties below.  Python exceptions are embedded as an `Except PyErr`
result.
-/

/- `Rat.sub` is `@[irreducible]` upstream; re-mark it semireducible so
that concrete QP corrections evaluate inside `decide` proofs. -/
attribute [local semireducible] Rat.sub

/-- Python exception kinds raised by the modelled code paths.
`dfitpackError` stands for the exception FITPACK's f2py wrapper raises
when its input checks fail (`dfitpack.error`; newer scipy raises
`ValueError` for the same violation — either way the call raises and
`build_scissors` propagates it). -/
inductive PyErr where
  | valueError (msg : String)
  | nameError (msg : String)
  | attributeError (msg : String)
  | indexError
  | dfitpackError (msg : String)
deriving DecidableEq, Repr

/-- Complex scalar (numpy complex values such as `qpe`, `ze0`, `vxcme`). -/
structure Cplx where
  re : ℚ
  im : ℚ
deriving DecidableEq, Repr

/-- Complex minus real, as in Python `self.qpe - self.e0`. -/
def Cplx.subReal (z : Cplx) (x : ℚ) : Cplx := ⟨z.re - x, z.im⟩

/-- A k-point: reduced coordinates (labels are irrelevant to the claims;
`Kpoint.__eq__` compares coordinates). -/
structure Kpoint where
  frac_coords : ℚ × ℚ × ℚ
deriving DecidableEq, Repr

/-- `QPState`: namedtuple with fields
`spin kpoint band e0 qpe qpe_diago vxcme sigxme sigcmee0 vUme ze0`. -/
structure QPState where
  spin : Nat
  kpoint : Kpoint
  band : Nat
  e0 : ℚ
  qpe : Cplx
  qpe_diago : ℚ
  vxcme : Cplx
  sigxme : Cplx
  sigcmee0 : Cplx
  vUme : Cplx
  ze0 : Cplx
deriving DecidableEq, Repr

/-- `QPState.qpeme0` property: `self.qpe - self.e0`. -/
def QPState.qpeme0 (qp : QPState) : Cplx := qp.qpe.subReal qp.e0

/-- `QPState.skb` property: the tuple `(spin, kpoint, band)`. -/
def QPState.skb (qp : QPState) : Nat × Kpoint × Nat := (qp.spin, qp.kpoint, qp.band)

/-- `QPState.copy`: shallow copy of every field (all fields are scalar
values here, so the copy has the same field values). -/
def QPState.copy (qp : QPState) : QPState := qp

/-- `QPList`: a Python `list` subclass carrying the `is_e0sorted` flag.
`QPList.__init__` defaults the flag to `False` unless passed as kwarg. -/
structure QPList where
  qps : List QPState
  is_e0sorted : Bool
deriving DecidableEq, Repr

/-- `QPList(args)` with no `is_e0sorted` kwarg: flag defaults to `False`. -/
def QPList.ofList (l : List QPState) : QPList := ⟨l, false⟩

/-- `QPList.copy`: `QPList([qp.copy() for qp in self], is_e0sorted=self.is_e0sorted)`. -/
def QPList.copy (self : QPList) : QPList := ⟨self.qps.map QPState.copy, self.is_e0sorted⟩

/-- Comparison used by `sorted(self, key=lambda qp: qp.e0)`. -/
def qpLE (a b : QPState) : Prop := a.e0 ≤ b.e0

instance : DecidableRel qpLE := fun a b => inferInstanceAs (Decidable (a.e0 ≤ b.e0))

instance : IsTotal QPState qpLE := ⟨fun a b => le_total a.e0 b.e0⟩

instance : IsTrans QPState qpLE := ⟨fun _ _ _ hab hbc => le_trans hab hbc⟩

/-- `QPList.sort_by_e0`: `QPList(sorted(self, key=lambda qp: qp.e0), is_e0sorted=True)`.
Python `sorted` is a stable sort; any stable sort computes the same list,
and it is embedded here by the stable `List.insertionSort`. -/
def QPList.sort_by_e0 (self : QPList) : QPList :=
  ⟨List.insertionSort qpLE self.qps, true⟩

/-- Message of the `ValueError` raised by `get_e0mesh` on an unsorted list. -/
def msg_not_sorted : String := "QPState corrections are not sorted. Use sort_by_e0"

/-- `QPList.get_e0mesh`: raises `ValueError` unless `is_e0sorted`, else the
array `[qp.e0 for qp in self]`. -/
def QPList.get_e0mesh (self : QPList) : Except PyErr (List ℚ) :=
  if !self.is_e0sorted then .error (.valueError msg_not_sorted)
  else .ok (self.qps.map QPState.e0)

/-- `QPList.get_qpeme0`: `get_field("qpeme0")`, the array of QP corrections
(no sortedness check in the source). -/
def QPList.get_qpeme0 (self : QPList) : List Cplx :=
  self.qps.map QPState.qpeme0

/-- Message prefix of the duplicate-key `ValueError` raised by `merge`
(the source appends the offending `skb` tuple to the message). -/
def msg_dup : String := "Found duplicated (s,b,k) indexes"

/-- `QPList.merge(other, copy=False)`: the source scans `other` and
raises `ValueError` at the first record whose `skb` occurs in
`skb0_list = [qp.skb for qp in self]` (embedded as: raise iff some record
of `other` collides), otherwise returns `QPList(self + other)` (the flag
defaults to `False`). -/
def QPList.merge (self other : QPList) (copy : Bool := false) : Except PyErr QPList :=
  let skb0_list := self.qps.map QPState.skb
  if other.qps.any (fun qp => skb0_list.contains qp.skb) then
    .error (.valueError msg_dup)
  else if copy then .ok (QPList.ofList (self.copy.qps ++ other.copy.qps))
  else .ok (QPList.ofList (self.qps ++ other.qps))

/-! ## Scissors construction (`QPList.build_scissors`) -/

/-- `bisect.bisect_left` on a sorted list: number of leading elements `< x`. -/
def bisect_left (a : List ℚ) (x : ℚ) : Nat :=
  (a.takeWhile (fun v => v < x)).length

/-- `bisect.bisect_right` on a sorted list: number of leading elements `≤ x`. -/
def bisect_right (a : List ℚ) (x : ℚ) : Nat :=
  (a.takeWhile (fun v => v ≤ x)).length

/-- `monty.bisect.find_ge`: index of the leftmost item `≥ x`; bare
`ValueError` when every item is `< x`. -/
def find_ge (a : List ℚ) (x : ℚ) : Except PyErr Nat :=
  let i := bisect_left a x
  if i ≠ a.length then .ok i else .error (.valueError "")

/-- `monty.bisect.find_le`: index of the rightmost item `≤ x`; bare
`ValueError` when every item is `> x`. -/
def find_le (a : List ℚ) (x : ℚ) : Except PyErr Nat :=
  let i := bisect_right a x
  if i ≠ 0 then .ok (i - 1) else .error (.valueError "")

/-- Python slice `a[start:stop1]` for non-negative bounds. -/
def pySlice (a : List α) (start stop1 : Nat) : List α :=
  (a.drop start).take (stop1 - start)

/-- `domains.ravel()` for a list of `[low, high]` rows. -/
def ravel2 : List (ℚ × ℚ) → List ℚ
  | [] => []
  | d :: rest => d.1 :: d.2 :: ravel2 rest

def msg_min_not_included : String := "min(e0mesh) is not included in domains"
def msg_max_not_included : String := "max(e0mesh) is not included in domains"
def msg_increasing : String := "domain boundaries should be given in increasing order."

/-- One iteration of the domain-validation loop of `build_scissors`
(for index `idx` into the flattened boundary array `dflat`): the four
`if` checks of the source, in source order.  Python evaluates
`e0mesh[0]` / `e0mesh[-1]` only under the corresponding index guard, so an
empty mesh gives `IndexError` there. -/
def domCheckAt (dflat e0mesh : List ℚ) (idx : Nat) : Except PyErr Unit :=
  let dsize := dflat.length
  let v := dflat.getD idx 0
  (if idx = 0 then
      match e0mesh.head? with
      | none => Except.error PyErr.indexError
      | some h =>
          if v > h then Except.error (PyErr.valueError msg_min_not_included) else pure ()
    else pure ()) >>= fun _ =>
  (if idx = dsize - 1 then
      match e0mesh.getLast? with
      | none => Except.error PyErr.indexError
      | some lastv =>
          if v < lastv then Except.error (PyErr.valueError msg_max_not_included) else pure ()
    else pure ()) >>= fun _ =>
  (if idx ≠ dsize - 1 ∧ dflat.getD idx 0 > dflat.getD (idx + 1) 0 then
      Except.error (PyErr.valueError msg_increasing)
    else pure ()) >>= fun _ =>
  (if idx = dsize - 1 ∧ dflat.getD idx 0 < dflat.getD (idx - 1) 0 then
      Except.error (PyErr.valueError msg_increasing)
    else pure ())

/-- `for idx, v in enumerate(dflat)` starting at `idx`, running `n` more
iterations of the validation loop. -/
def validateFrom (dflat e0mesh : List ℚ) : Nat → Nat → Except PyErr Unit
  | _, 0 => .ok ()
  | idx, n + 1 => do
      domCheckAt dflat e0mesh idx
      validateFrom dflat e0mesh (idx + 1) n

/-- The whole domain-validation loop of `build_scissors`. -/
def validateDomains (dflat e0mesh : List ℚ) : Except PyErr Unit :=
  validateFrom dflat e0mesh 0 dflat.length

/-- `w = len(dom_e0)*[1]; w[-1] = 1000` (IndexError on an empty list). -/
def anchorLast (n : Nat) : Except PyErr (List ℚ) :=
  if n = 0 then .error .indexError
  else .ok ((List.replicate n (1 : ℚ)).set (n - 1) 1000)

/-- `w = len(dom_e0)*[1]; w[0] = 1000` (IndexError on an empty list). -/
def anchorFirst (n : Nat) : Except PyErr (List ℚ) :=
  if n = 0 then .error .indexError
  else .ok ((List.replicate n (1 : ℚ)).set 0 1000)

def msg_x_increasing : String := "x must be increasing if s > 0"
def msg_m_gt_k : String := "(m>k) failed for hidden m: fpcurf0"

/-- `np.all(np.diff(x) >= 0.0)`: consecutive abscissae non-decreasing. -/
def diffsNonneg : List ℚ → Bool
  | [] => true
  | [_] => true
  | a :: b :: rest => decide (a ≤ b) && diffsNonneg (b :: rest)

/-- The data fed to a SUCCESSFUL `UnivariateSpline` call for one domain.
The fitted spline is determined by exactly this record (`scipy` is
deterministic), so the scissors object is embedded as the list of these
records; the constructor's failing input checks are modelled in
`domainFit` before this record is produced.  `w = none` embeds Python
`w = None` (scipy default: uniform weights). -/
structure DomainFit where
  dom : ℚ × ℚ
  start : Nat
  stop : Nat
  dom_e0 : List ℚ
  dom_corr : List Cplx
  w : Option (List ℚ)
  k : Nat
deriving DecidableEq, Repr

/-- Body of the fitting loop of `build_scissors` for one domain, with
`ndom` the value of the counter after `ndom += 1`.  The
`UnivariateSpline(dom_e0, dom_corr, w=w, bbox=[None, None], k=k, s=None)`
call raises unless its input checks pass: the abscissae must be
non-decreasing (scipy, with the default smoothing `s > 0`), and FITPACK
requires strictly more data points than the spline degree (`m > k`,
enforced by the f2py wrapper; the source's own todo at the call site
notes the missing guard).  A successful call is embedded by its
`DomainFit` input record. -/
def domainFit (e0mesh : List ℚ) (qpcorrs : List Cplx) (k ndom : Nat) (dom : ℚ × ℚ) :
    Except PyErr DomainFit := do
  let start ← find_ge e0mesh dom.1
  let stop ← find_le e0mesh dom.2
  let dom_e0 := pySlice e0mesh start (stop + 1)
  let dom_corr := pySlice qpcorrs start (stop + 1)
  let w : Option (List ℚ) ←
    if ndom = 1 then do
      let wl ← anchorLast dom_e0.length
      pure (some wl)
    else if ndom = 2 then do
      let wl ← anchorFirst dom_e0.length
      pure (some wl)
    else pure none
  if ¬ diffsNonneg dom_e0 then
    Except.error (PyErr.valueError msg_x_increasing)
  else if ¬ (k < dom_e0.length) then
    Except.error (PyErr.dfitpackError msg_m_gt_k)
  else pure ⟨dom, start, stop, dom_e0, dom_corr, w, k⟩

/-- The fitting loop `for dom in domains[:]` threading the `ndom` counter. -/
def fitDomains (e0mesh : List ℚ) (qpcorrs : List Cplx) (k : Nat) :
    Nat → List (ℚ × ℚ) → Except PyErr (List DomainFit)
  | _, [] => .ok []
  | ndom, dom :: rest => do
      let f ← domainFit e0mesh qpcorrs k (ndom + 1) dom
      let fs ← fitDomains e0mesh qpcorrs k (ndom + 1) rest
      pure (f :: fs)

/-- The `Scissors` object: the fitted functions (one per domain, embedded
by their defining data) and the domain list.  The `residues` list is
derived from the fits and `bounds` is unused by the source. -/
structure Scissors where
  func_list : List DomainFit
  domains : List (ℚ × ℚ)
deriving DecidableEq, Repr

/-- `QPList.build_scissors(domains, bounds=None, k=3)`: sort by e0, take
the e0 mesh and the corrections, validate the flattened domain boundaries,
then fit one spline per domain with the `ndom`-counter weight rule
(`ndom` starts at 0 for exactly two domains, at 99 otherwise). -/
def QPList.build_scissors (self : QPList) (domains : List (ℚ × ℚ)) (k : Nat := 3) :
    Except PyErr Scissors := do
  let qps := self.sort_by_e0
  let e0mesh ← qps.get_e0mesh
  let qpcorrs := qps.get_qpeme0
  let dflat := ravel2 domains
  validateDomains dflat e0mesh
  let ndom0 := if domains.length = 2 then 0 else 99
  let fits ← fitDomains e0mesh qpcorrs k ndom0 domains
  pure ⟨fits, domains⟩

/-- The sample-selection rule as worded by the spec (claim C2): the
greatest sample `≤ low` gives the start index, the least sample `≥ high`
gives the end index.  Stated over a sorted mesh; compared against the
indices the code actually computes. -/
def spec_start_index (e0mesh : List ℚ) (low : ℚ) : Option Nat :=
  ((List.range e0mesh.length).filter (fun i => e0mesh.getD i 0 ≤ low)).getLast?

/-- Spec-worded end index for claim C2: the least sample `≥ high`. -/
def spec_stop_index (e0mesh : List ℚ) (high : ℚ) : Option Nat :=
  ((List.range e0mesh.length).filter (fun i => high ≤ e0mesh.getD i 0)).head?

/-! ## Error-handling skeleton of `SigresFile.interpolate`

The claims about `interpolate` (C3, C6) concern which checks warn and
which raise, so the embedding keeps the raise/warn control flow of the
source exactly and abstracts the numerical payload (interpolated
eigenvalues, k-point generation, the star-function interpolator itself):
a band structure is embedded by the two attributes the checks read
(its structure identity and its number of bands), and the returned
namedtuple by the warnings emitted plus which members were produced. -/

/-- A KS `ElectronBands` argument, reduced to the attributes read by the
checks of `interpolate`: the identity of its crystalline structure and
`nband`. -/
structure EbandsModel where
  struct_id : Nat
  nband : Nat
deriving DecidableEq, Repr

/-- The `SigresFile` attributes read by the checks of `interpolate`. -/
structure SigresModel where
  n_gwkpoints : Nat
  n_ibz : Nat
  struct_id : Nat
  min_gwbstop : Nat
deriving DecidableEq, Repr

def msg_nkibz : String :=
  "QP energies should be computed for all k-points in the IBZ but nkibz != nkptgw"
def msg_nkptgw : String := "QP Interpolation requires nkptgw > 1."
def msg_few_bands_warn : String :=
  "Number of bands in KS band structure smaller than the number of bands in GW corrections"
def msg_struct_kpath_warn : String :=
  "sigres.structure and ks_ebands_kpath.structures differ. Check your files!"
def msg_struct_kmesh : String :=
  "sigres.structure and ks_ebands_kmesh.structures differ. Check your files!"
def msg_name_nband : String := "name nband is not defined"
def msg_attr_structure : String := "NoneType object has no attribute structure"

/-- The result bundle of `interpolate`, abstracted to the warnings printed
(`cprint` calls, in emission order) and which band-structure members the
bundle carries. -/
structure InterpBundle where
  warnings : List String
  from_kpath_ref : Bool
  has_kmesh : Bool
deriving DecidableEq, Repr

/-- Raise/warn control flow of `SigresFile.interpolate`:
consistency checks on the GW k-point set, the band-range clip warning and
the structure-mismatch warning for `ks_ebands_kpath`, then the k-mesh
branch.  In the k-mesh branch the source guards the band check with
`if bstop > ks_ebands_kmesh.nband:` and then raises `ValueError` with a
message built from `ks_ebands_kmesh%nband`; the bare name `nband` is
undefined there, so evaluating the message raises `NameError` instead.
The structure check of that branch reads `ks_ebands_kpath.structure`
(not the k-mesh bands), giving `AttributeError` when no k-path reference
was passed, and raises `ValueError` on mismatch. -/
def SigresModel.interpolate (self : SigresModel)
    (ks_ebands_kpath ks_ebands_kmesh : Option EbandsModel) :
    Except PyErr InterpBundle :=
  let errlines : List String :=
    (if self.n_gwkpoints ≠ self.n_ibz then [msg_nkibz] else []) ++
    (if self.n_gwkpoints = 1 then [msg_nkptgw] else [])
  if errlines ≠ [] then .error (.valueError (String.intercalate "\n" errlines))
  else
    let bstop : Int :=
      match ks_ebands_kpath with
      | none => -1
      | some kp => min kp.nband self.min_gwbstop
    let warns1 : List String :=
      match ks_ebands_kpath with
      | none => []
      | some kp => if kp.nband < self.min_gwbstop then [msg_few_bands_warn] else []
    let warns2 : List String :=
      warns1 ++
        (match ks_ebands_kpath with
         | none => []
         | some kp => if kp.struct_id ≠ self.struct_id then [msg_struct_kpath_warn] else [])
    match ks_ebands_kmesh with
    | none => .ok ⟨warns2, ks_ebands_kpath.isSome, false⟩
    | some km =>
        if bstop > (km.nband : Int) then .error (.nameError msg_name_nband)
        else
          match ks_ebands_kpath with
          | none => .error (.attributeError msg_attr_structure)
          | some kp =>
              if kp.struct_id ≠ self.struct_id then .error (.valueError msg_struct_kmesh)
              else .ok ⟨warns2, true, true⟩

/-! ## Concrete sample data used by witnesses and counterexamples -/

/-- Build a `QPState` with the fields relevant to the claims; the
remaining matrix elements are zero. -/
def mkQP (spin : Nat) (kx : ℚ) (band : Nat) (e0 qre qim : ℚ) : QPState :=
  ⟨spin, ⟨(kx, 0, 0)⟩, band, e0, ⟨qre, qim⟩, 0, ⟨0, 0⟩, ⟨0, 0⟩, ⟨0, 0⟩, ⟨0, 0⟩, ⟨0, 0⟩⟩

/-- Four QP samples with e0 = 0,10,20,30 and corrections 1,2,2,3 (used by
claims that never reach the spline call). -/
def qpl4 : QPList :=
  QPList.ofList [mkQP 0 0 1 0 1 0, mkQP 0 0 2 10 12 0, mkQP 0 1 1 20 22 0, mkQP 0 1 2 30 33 0]

/-- Eight QP samples with e0 = 0,10,...,70, so that each of the two
domains below holds 4 samples — strictly more than the default spline
degree k = 3, as FITPACK requires for the fit to succeed. -/
def qpl8 : QPList :=
  QPList.ofList [mkQP 0 0 1 0 1 0, mkQP 0 0 2 10 12 0, mkQP 0 0 3 20 22 0,
    mkQP 0 0 4 30 33 0, mkQP 0 0 5 40 43 0, mkQP 0 0 6 50 54 0,
    mkQP 0 0 7 60 64 0, mkQP 0 0 8 70 75 0]

/-- Two domains bracketing the samples of `qpl8`, split at 35 (strictly
between the samples 30 and 40); 4 samples fall in each. -/
def doms8 : List (ℚ × ℚ) := [(0, 35), (35, 70)]

/-- A domain list whose first boundary (10) lies above the minimum sample
e0 (0) of `qpl4`. -/
def domsBad : List (ℚ × ℚ) := [(10, 30)]

/-- The scissors `qpl8.build_scissors doms8` evaluates to. -/
def sciss8 : Scissors :=
  ⟨[⟨(0, 35), 0, 3, [0, 10, 20, 30], [⟨1, 0⟩, ⟨2, 0⟩, ⟨2, 0⟩, ⟨3, 0⟩],
      some [1, 1, 1, 1000], 3⟩,
    ⟨(35, 70), 4, 7, [40, 50, 60, 70], [⟨3, 0⟩, ⟨4, 0⟩, ⟨4, 0⟩, ⟨5, 0⟩],
      some [1000, 1, 1, 1], 3⟩],
   [(0, 35), (35, 70)]⟩

/-- Two records sharing e0 = 10 but with different corrections (a tie for
the stable sort, sitting exactly on the domain split), plus six records
bracketing them so that each domain holds 5 samples (> k = 3). -/
def rA : QPState := mkQP 0 0 3 10 14 0
def rB : QPState := mkQP 0 0 4 10 16 0
def r0 : QPState := mkQP 0 0 0 0 1 0
def r1 : QPState := mkQP 0 0 1 3 4 0
def r2 : QPState := mkQP 0 0 2 7 8 0
def r3 : QPState := mkQP 0 0 5 13 14 0
def r4 : QPState := mkQP 0 0 6 17 18 0
def r5 : QPState := mkQP 0 0 7 20 22 0

/-- The tied pair in both orders, ahead of the same six other records. -/
def qplP1 : QPList := QPList.ofList [rA, rB, r0, r1, r2, r3, r4, r5]
def qplP2 : QPList := QPList.ofList [rB, rA, r0, r1, r2, r3, r4, r5]

/-- Two domains for the tied-sample lists (split exactly at the tie);
each domain selects 5 samples, so both spline calls succeed. -/
def domsTie : List (ℚ × ℚ) := [(0, 10), (10, 20)]

/-- Merge test data: two records, a key-disjoint record, a record
colliding with `qmA`, and a list with an internal duplicate key. -/
def qmA : QPList := QPList.ofList [mkQP 0 0 1 0 1 0, mkQP 0 0 2 1 3 0]
def qmB : QPList := QPList.ofList [mkQP 0 1 1 2 4 0]
def qmColl : QPList := QPList.ofList [mkQP 0 0 1 5 9 0]
def qmDup : QPList := QPList.ofList [mkQP 0 0 1 0 1 0, mkQP 0 0 1 2 3 0]

/-- Distinct-e0 eight-record lists that are permutations of each other
(the records of `qpl8`, in two different orders, so the builds over
`doms8` succeed). -/
def qlw1 : List QPState := [mkQP 0 0 8 70 75 0, mkQP 0 0 7 60 64 0,
  mkQP 0 0 6 50 54 0, mkQP 0 0 5 40 43 0, mkQP 0 0 4 30 33 0,
  mkQP 0 0 3 20 22 0, mkQP 0 0 2 10 12 0, mkQP 0 0 1 0 1 0]
def qlw2 : List QPState := [mkQP 0 0 1 0 1 0, mkQP 0 0 2 10 12 0,
  mkQP 0 0 3 20 22 0, mkQP 0 0 4 30 33 0, mkQP 0 0 5 40 43 0,
  mkQP 0 0 6 50 54 0, mkQP 0 0 7 60 64 0, mkQP 0 0 8 70 75 0]

/-- A SIGRES model: 4 GW k-points = 4 IBZ k-points, structure id 10,
`min_gwbstop` = 5. -/
def sigA : SigresModel := ⟨4, 4, 10, 5⟩

/-- Reference bands whose structure (id 11) differs from `sigA`. -/
def kpBad : EbandsModel := ⟨11, 5⟩

/-- Reference bands matching `sigA`, 5 bands. -/
def kpGood : EbandsModel := ⟨10, 5⟩

/-- A k-mesh reference with only 3 bands (fewer than `bstop` = 5). -/
def kmSmall : EbandsModel := ⟨10, 3⟩

/-- Decidable equality of `Except` results, so concrete evaluations can
be settled by `decide`. -/
instance {ε α : Type} [DecidableEq ε] [DecidableEq α] : DecidableEq (Except ε α) := fun x y => by
  cases x with
  | error e1 =>
    cases y with
    | error e2 =>
      exact if h : e1 = e2 then .isTrue (by rw [h]) else .isFalse (by intro hc; cases hc; exact h rfl)
    | ok a2 => exact .isFalse (by intro hc; cases hc)
  | ok a1 =>
    cases y with
    | error e2 => exact .isFalse (by intro hc; cases hc)
    | ok a2 =>
      exact if h : a1 = a2 then .isTrue (by rw [h]) else .isFalse (by intro hc; cases hc; exact h rfl)

/-! ## Helper lemmas -/


theorem sort_pairwise (qpl : QPList) :
    (qpl.sort_by_e0).qps.Pairwise (fun a b => a.e0 ≤ b.e0) :=
  List.sorted_insertionSort qpLE qpl.qps

theorem mesh_sorted (qpl : QPList) :
    ((qpl.sort_by_e0).qps.map QPState.e0).Sorted (· ≤ ·) := by
  rw [List.Sorted, List.pairwise_map]
  exact sort_pairwise qpl

theorem copy_qps (q : QPList) : q.copy.qps = q.qps := by
  show List.map QPState.copy q.qps = q.qps
  have hid : QPState.copy = fun a : QPState => a := rfl
  rw [hid, List.map_id']

theorem merge_disjoint_ok (a b : QPList) (c : Bool)
    (h : ∀ qp ∈ b.qps, qp.skb ∉ a.qps.map QPState.skb) :
    a.merge b c = .ok (QPList.ofList (a.qps ++ b.qps)) := by
  have hf : b.qps.any (fun qp => (a.qps.map QPState.skb).contains qp.skb) = false := by
    refine List.any_eq_false.mpr (fun qp hqp he => ?_)
    exact h qp hqp (List.elem_iff.mp he)
  show (if b.qps.any (fun qp => (a.qps.map QPState.skb).contains qp.skb) then
      (Except.error (PyErr.valueError msg_dup) : Except PyErr QPList)
    else if c then .ok (QPList.ofList (a.copy.qps ++ b.copy.qps))
    else .ok (QPList.ofList (a.qps ++ b.qps))) = .ok (QPList.ofList (a.qps ++ b.qps))
  rw [hf]
  cases c with
  | false => rfl
  | true =>
    show Except.ok (QPList.ofList (a.copy.qps ++ b.copy.qps))
        = Except.ok (QPList.ofList (a.qps ++ b.qps))
    rw [copy_qps, copy_qps]

theorem merge_dup_error (a b : QPList) (c : Bool)
    (h : ∃ qp ∈ b.qps, qp.skb ∈ a.qps.map QPState.skb) :
    a.merge b c = .error (.valueError msg_dup) := by
  obtain ⟨qp, hqp, hmem⟩ := h
  have hf : b.qps.any (fun qp => (a.qps.map QPState.skb).contains qp.skb) = true :=
    List.any_eq_true.mpr ⟨qp, hqp, List.elem_iff.mpr hmem⟩
  show (if b.qps.any (fun qp => (a.qps.map QPState.skb).contains qp.skb) then
      (Except.error (PyErr.valueError msg_dup) : Except PyErr QPList)
    else if c then .ok (QPList.ofList (a.copy.qps ++ b.copy.qps))
    else .ok (QPList.ofList (a.qps ++ b.qps))) = .error (.valueError msg_dup)
  rw [hf]
  rfl

/-- C7: `sort_by_e0` returns a new list whose e0 values are in
non-decreasing order and whose `is_e0sorted` flag is true, and
`get_e0mesh` on it returns that non-decreasing sequence; `get_e0mesh` on a
collection whose sorted-by-e0 flag is false raises `ValueError`. -/
theorem C7_sort_and_mesh (qpl : QPList) :
    (qpl.sort_by_e0).is_e0sorted = true ∧
    (qpl.sort_by_e0).qps.Perm qpl.qps ∧
    ((qpl.sort_by_e0).qps.map QPState.e0).Sorted (· ≤ ·) ∧
    (qpl.sort_by_e0).get_e0mesh = .ok ((qpl.sort_by_e0).qps.map QPState.e0) ∧
    (∀ q : QPList, q.is_e0sorted = false →
        q.get_e0mesh = .error (.valueError msg_not_sorted)) := by
  refine ⟨rfl, List.perm_insertionSort qpLE qpl.qps, mesh_sorted qpl, rfl, ?_⟩
  intro q hq
  simp [QPList.get_e0mesh, hq]

/-- Witness for C7 at `qpl4` (whose flag is false, so the mesh accessor
fails on it, while it succeeds on the sorted copy). -/
theorem C7_witness :
    (qpl4.sort_by_e0).is_e0sorted = true ∧
    qpl4.get_e0mesh = .error (.valueError msg_not_sorted) :=
  ⟨(C7_sort_and_mesh qpl4).1, (C7_sort_and_mesh qpl4).2.2.2.2 qpl4 rfl⟩

/-- C5: `merge` raises the duplicate-key `ValueError` iff some record of
`other` has a `(spin, kpoint, band)` key equal to a key of `self` (the
embedding is pure — the source only reads the inputs and builds a fresh
list, so neither input is mutated in either case); with disjoint key sets
it returns a new `QPList` equal to `self`'s records followed by
`other`'s, of length `len(self) + len(other)`, containing every record of
both inputs. -/
theorem C5_merge_spec (a b : QPList) :
    ((∃ qp ∈ b.qps, qp.skb ∈ a.qps.map QPState.skb) ↔
        a.merge b = .error (.valueError msg_dup)) ∧
    ((∀ qp ∈ b.qps, qp.skb ∉ a.qps.map QPState.skb) →
        a.merge b = .ok (QPList.ofList (a.qps ++ b.qps)) ∧
        (QPList.ofList (a.qps ++ b.qps)).qps.length = a.qps.length + b.qps.length ∧
        (∀ qp, qp ∈ a.qps ∨ qp ∈ b.qps →
            qp ∈ (QPList.ofList (a.qps ++ b.qps)).qps)) := by
  constructor
  · constructor
    · intro h
      exact merge_dup_error a b false h
    · intro h
      by_contra hno
      push_neg at hno
      have hok : a.merge b = .ok (QPList.ofList (a.qps ++ b.qps)) :=
        merge_disjoint_ok a b false (fun qp hqp => hno qp hqp)
      rw [hok] at h
      exact Except.noConfusion h
  · intro h
    refine ⟨merge_disjoint_ok a b false h, by simp [QPList.ofList], ?_⟩
    intro qp hqp
    simp only [QPList.ofList, List.mem_append]
    exact hqp

/-- Witness for C5: a disjoint merge succeeds with the concatenated
records, a colliding merge fails with the duplicate-key error. -/
theorem C5_witness :
    qmA.merge qmB = .ok (QPList.ofList (qmA.qps ++ qmB.qps)) ∧
    qmA.merge qmColl = .error (.valueError msg_dup) :=
  ⟨((C5_merge_spec qmA qmB).2 (by decide)).1,
   (C5_merge_spec qmA qmColl).1.mp (by decide)⟩

/-- C8: every successful merge result carries `is_e0sorted = false`
(the `QPList(qps)` constructor call in `merge` passes no flag), so
`get_e0mesh` on it raises `ValueError` until `sort_by_e0` is called. -/
theorem C8_merge_flag (a b r : QPList) (c : Bool) (h : a.merge b c = .ok r) :
    r.is_e0sorted = false ∧ r.get_e0mesh = .error (.valueError msg_not_sorted) := by
  cases hf : b.qps.any (fun qp => (a.qps.map QPState.skb).contains qp.skb) with
  | true =>
    obtain ⟨qp, hqp, hc⟩ := List.any_eq_true.mp hf
    have hm := merge_dup_error a b c ⟨qp, hqp, List.elem_iff.mp hc⟩
    rw [hm] at h
    exact Except.noConfusion h
  | false =>
    have hd : ∀ qp ∈ b.qps, qp.skb ∉ a.qps.map QPState.skb := by
      intro qp hqp hmem
      exact absurd (List.elem_iff.mpr hmem) (by simpa using List.any_eq_false.mp hf qp hqp)
    have hm := merge_disjoint_ok a b c hd
    rw [hm] at h
    injection h with h2
    subst h2
    exact ⟨rfl, rfl⟩

/-- Witness for C8: merging two sorted (flag-true) disjoint lists yields
a flag-false result whose mesh accessor fails. -/
theorem C8_witness :
    (qmA.sort_by_e0).is_e0sorted = true ∧
    (qmB.sort_by_e0).is_e0sorted = true ∧
    (QPList.ofList ((qmA.sort_by_e0).qps ++ (qmB.sort_by_e0).qps)).is_e0sorted = false ∧
    (QPList.ofList ((qmA.sort_by_e0).qps ++ (qmB.sort_by_e0).qps)).get_e0mesh
      = .error (.valueError msg_not_sorted) := by
  have h := C8_merge_flag (qmA.sort_by_e0) (qmB.sort_by_e0)
    (QPList.ofList ((qmA.sort_by_e0).qps ++ (qmB.sort_by_e0).qps)) false (by decide)
  exact ⟨rfl, rfl, h.1, h.2⟩

/-- C9: `merge` checks keys only across the two operands: when no key of
`other` occurs in `self`, the merge succeeds even if `self` internally
contains two records with the same key, and the duplicate keys survive
into the result. -/
theorem C9_merge_cross_only (a b : QPList) (c : Bool)
    (h : ∀ qp ∈ b.qps, qp.skb ∉ a.qps.map QPState.skb) :
    a.merge b c = .ok (QPList.ofList (a.qps ++ b.qps)) ∧
    (¬ (a.qps.map QPState.skb).Nodup →
        ¬ ((QPList.ofList (a.qps ++ b.qps)).qps.map QPState.skb).Nodup) := by
  refine ⟨merge_disjoint_ok a b c h, ?_⟩
  intro hnd hnd'
  apply hnd
  have heq : (QPList.ofList (a.qps ++ b.qps)).qps.map QPState.skb
      = a.qps.map QPState.skb ++ b.qps.map QPState.skb := by
    simp [QPList.ofList]
  rw [heq] at hnd'
  exact hnd'.of_append_left

/-- Witness for C9: `qmDup` holds two records with the same key; merging
it with the key-disjoint `qmB` succeeds and the result still has the
duplicated key. -/
theorem C9_witness :
    qmDup.merge qmB = .ok (QPList.ofList (qmDup.qps ++ qmB.qps)) ∧
    ¬ ((QPList.ofList (qmDup.qps ++ qmB.qps)).qps.map QPState.skb).Nodup := by
  have h := C9_merge_cross_only qmDup qmB false (by decide)
  exact ⟨h.1, h.2 (by decide)⟩

/-- C3 counterexample: `sigA` with a k-path reference whose structure
differs (id 11 vs 10) and a k-mesh reference (matching structure, enough
bands).  The claim says a structure mismatch of a supplied reference is a
warning and the call still returns the bundle; the code raises a fatal
`ValueError` in the k-mesh branch (which re-reads the k-path reference's
structure). -/
theorem C3_counterexample :
    sigA.interpolate (some kpBad) (some kpGood)
      = .error (.valueError msg_struct_kmesh) := by decide

/-- C3 amended: a structure mismatch of `ks_ebands_kpath` is only a
warning when no `ks_ebands_kmesh` is passed — the call returns the bundle
with the mismatch warning recorded; as soon as a k-mesh reference is also
supplied, the same mismatch is fatal (the k-mesh branch raises on the
k-path structure; the k-mesh structure itself is never compared). -/
theorem C3_amended (m : SigresModel) (kp : EbandsModel)
    (h1 : m.n_gwkpoints = m.n_ibz) (h2 : m.n_gwkpoints ≠ 1)
    (hmis : kp.struct_id ≠ m.struct_id) :
    (∃ bnd, m.interpolate (some kp) none = .ok bnd ∧
        msg_struct_kpath_warn ∈ bnd.warnings) ∧
    (∀ km, ∃ e, m.interpolate (some kp) (some km) = .error e) := by
  rw [h1] at h2
  constructor
  · by_cases hnb : kp.nband < m.min_gwbstop
    · exact ⟨⟨[msg_few_bands_warn, msg_struct_kpath_warn], true, false⟩,
        by simp [SigresModel.interpolate, h1, h2, hmis, hnb], by simp⟩
    · exact ⟨⟨[msg_struct_kpath_warn], true, false⟩,
        by simp [SigresModel.interpolate, h1, h2, hmis, hnb], by simp⟩
  · intro km
    by_cases hb : (min kp.nband m.min_gwbstop : Int) > (km.nband : Int)
    · exact ⟨.nameError msg_name_nband,
        by simp [SigresModel.interpolate, h1, h2, hmis, hb]⟩
    · exact ⟨.valueError msg_struct_kmesh,
        by simp [SigresModel.interpolate, h1, h2, hmis, hb]⟩

/-- Witness for the C3 amended theorem at `sigA` / `kpBad`: the k-path-only
call succeeds with the warning recorded; adding a (structure-matching)
k-mesh reference makes the call fail. -/
theorem C3_witness :
    (∃ bnd, sigA.interpolate (some kpBad) none = .ok bnd ∧
        msg_struct_kpath_warn ∈ bnd.warnings) ∧
    (∃ e, sigA.interpolate (some kpBad) (some kpGood) = .error e) :=
  ⟨(C3_amended sigA kpBad rfl (by decide) (by decide)).1,
   (C3_amended sigA kpBad rfl (by decide) (by decide)).2 kpGood⟩

/-- C6: when a k-mesh reference with too few bands is supplied, the code
reaches `raise ValueError(... % (ks_ebands_kmesh%nband, bstop))`; the
bare name `nband` is undefined, so Python raises `NameError` while
formatting the message — not the `ValueError` the claim (and the raise
statement) intend.  Here: 4 GW k-points (= IBZ), a matching k-path
reference with 5 bands (so `bstop = 5`), and a k-mesh reference with only
3 bands. -/
theorem C6_kmesh_nameerror :
    sigA.interpolate (some kpGood) (some kmSmall)
      = .error (.nameError msg_name_nband) := by decide

theorem except_bind_ok {ε α β : Type} (x : Except ε α) (f : α → Except ε β) (b : β) :
    (x >>= f) = .ok b ↔ ∃ a, x = .ok a ∧ f a = .ok b := by
  cases x with
  | error e => simp [Bind.bind, Except.bind]
  | ok a => simp [Bind.bind, Except.bind]

theorem except_bind_err {ε α β : Type} (x : Except ε α) (f : α → Except ε β) (e : ε) :
    (x >>= f) = .error e ↔ x = .error e ∨ ∃ a, x = .ok a ∧ f a = .error e := by
  cases x with
  | error e2 => simp [Bind.bind, Except.bind]
  | ok a => simp [Bind.bind, Except.bind]

theorem except_err_bind {ε α β : Type} (f : α → Except ε β) (e : ε) :
    ((Except.error e : Except ε α) >>= f) = .error e := rfl

/-- Two lists that are permutations of each other, both strictly sorted
on the e0 key, are equal. -/
theorem eq_of_perm_of_strict (l1 l2 : List QPState) (hp : l1.Perm l2)
    (h1 : l1.Pairwise (fun a b => a.e0 < b.e0 ∨ a = b))
    (h2 : l2.Pairwise (fun a b => a.e0 < b.e0 ∨ a = b)) : l1 = l2 := by
  haveI : IsAntisymm QPState (fun a b => a.e0 < b.e0 ∨ a = b) := ⟨by
    intro a b hab hba
    rcases hab with hlt1 | heq1
    · rcases hba with hlt2 | heq2
      · exact absurd (lt_trans hlt1 hlt2) (lt_irrefl _)
      · exact heq2.symm
    · exact heq1⟩
  exact List.eq_of_perm_of_sorted hp h1 h2

/-- A sorted list whose e0 keys are pairwise distinct is strictly sorted. -/
theorem strict_of_sorted_nodup (l : List QPState)
    (hs : l.Pairwise qpLE) (hnd : (l.map QPState.e0).Nodup) :
    l.Pairwise (fun a b => a.e0 < b.e0 ∨ a = b) := by
  rw [List.Nodup, List.pairwise_map] at hnd
  exact (hs.and hnd).imp (fun h => Or.inl (lt_of_le_of_ne h.1 h.2))

/-- C10 counterexample: `qplP1` and `qplP2` are permutations of each other
(two records share e0 = 10 but have different corrections, in swapped
order), yet `build_scissors` over the two-domain split at the tie yields
different SUCCESSFUL scissors (each domain holds 5 samples, above the
spline degree 3, so both fits go through): the stable sort keeps the
tied records in input order, and the fitted per-domain data differ. -/
theorem C10_counterexample :
    qplP1.qps.Perm qplP2.qps ∧
    qplP1.build_scissors domsTie ≠ qplP2.build_scissors domsTie ∧
    (qplP1.build_scissors domsTie).toOption ≠ none ∧
    (qplP2.build_scissors domsTie).toOption ≠ none :=
  ⟨by decide, by decide, by decide, by decide⟩

/-- C10 amended: `build_scissors` sorts internally, so its result never
depends on the `is_e0sorted` flag of the input (it never fails because
the flag is false), and it is invariant under permutation of the records
provided the e0 values are pairwise distinct; with duplicated e0 values
the stable sort makes the result depend on the input order of the tied
records. -/
theorem C10_amended (l1 l2 : List QPState) (doms : List (ℚ × ℚ)) (k : Nat) :
    (∀ c1 c2 : Bool,
        QPList.build_scissors ⟨l1, c1⟩ doms k = QPList.build_scissors ⟨l1, c2⟩ doms k) ∧
    (l1.Perm l2 → (l1.map QPState.e0).Nodup →
        ∀ c1 c2 : Bool,
          QPList.build_scissors ⟨l1, c1⟩ doms k = QPList.build_scissors ⟨l2, c2⟩ doms k) := by
  refine ⟨fun c1 c2 => rfl, ?_⟩
  intro hperm hnd c1 c2
  have hnd1 : ((List.insertionSort qpLE l1).map QPState.e0).Nodup :=
    (((List.perm_insertionSort qpLE l1).map QPState.e0).nodup_iff).mpr hnd
  have hnd2 : ((List.insertionSort qpLE l2).map QPState.e0).Nodup := by
    refine (((List.perm_insertionSort qpLE l2).map QPState.e0).nodup_iff).mpr ?_
    exact ((hperm.map QPState.e0).nodup_iff).mp hnd
  have hp : (List.insertionSort qpLE l1).Perm (List.insertionSort qpLE l2) :=
    (List.perm_insertionSort qpLE l1).trans
      (hperm.trans (List.perm_insertionSort qpLE l2).symm)
  have hsort : List.insertionSort qpLE l1 = List.insertionSort qpLE l2 :=
    eq_of_perm_of_strict _ _ hp
      (strict_of_sorted_nodup _ (List.sorted_insertionSort qpLE l1) hnd1)
      (strict_of_sorted_nodup _ (List.sorted_insertionSort qpLE l2) hnd2)
  show QPList.build_scissors ⟨l1, c1⟩ doms k = QPList.build_scissors ⟨l2, c2⟩ doms k
  simp only [QPList.build_scissors, QPList.sort_by_e0]
  rw [hsort]

/-- Witness for the C10 amended theorem: eight-record permuted lists with
distinct e0 values, fed in with different flags, give the same scissors —
and the shared result is a successful build. -/
theorem C10_witness :
    QPList.build_scissors ⟨qlw1, false⟩ doms8 3
      = QPList.build_scissors ⟨qlw2, true⟩ doms8 3 ∧
    (QPList.build_scissors ⟨qlw1, false⟩ doms8 3).toOption ≠ none :=
  ⟨(C10_amended qlw1 qlw2 doms8 3).2 (by decide) (by decide) false true, by decide⟩

/-- Index-wise reading of `takeWhile`: every position before its length
satisfies the predicate, and the first position after it (when any)
fails it. -/
theorem takeWhile_spec (p : ℚ → Bool) (l : List ℚ) :
    (∀ j, j < (l.takeWhile p).length → p (l.getD j 0) = true) ∧
    ((l.takeWhile p).length < l.length → p (l.getD (l.takeWhile p).length 0) = false) := by
  induction l with
  | nil => exact ⟨fun j hj => absurd hj (by simp), fun h => absurd h (by simp)⟩
  | cons a t ih =>
    cases hp : p a with
    | true =>
      constructor
      · intro j hj
        simp only [List.takeWhile_cons, hp, if_true, List.length_cons] at hj
        cases j with
        | zero => simpa using hp
        | succ j2 =>
          have hj2 : j2 < (t.takeWhile p).length := by omega
          simpa using ih.1 j2 hj2
      · intro hlen
        simp only [List.takeWhile_cons, hp, if_true, List.length_cons] at hlen ⊢
        have hlen2 : (t.takeWhile p).length < t.length := by omega
        simpa using ih.2 hlen2
    | false =>
      constructor
      · intro j hj
        simp [List.takeWhile_cons, hp] at hj
      · intro _
        simp only [List.takeWhile_cons, hp]
        simpa using hp

/-- On a sorted list, `getD` is monotone in the index. -/
theorem sorted_getD_le (l : List ℚ) (hs : l.Pairwise (· ≤ ·)) (i j : Nat)
    (hij : i ≤ j) (hj : j < l.length) : l.getD i 0 ≤ l.getD j 0 := by
  rcases eq_or_lt_of_le hij with rfl | hlt
  · exact le_refl _
  · have hi : i < l.length := lt_trans hlt hj
    have h := List.pairwise_iff_get.mp hs ⟨i, hi⟩ ⟨j, hj⟩ (Fin.mk_lt_mk.mpr hlt)
    rw [List.getD_eq_getElem l 0 hi, List.getD_eq_getElem l 0 hj]
    simpa [List.get_eq_getElem] using h

theorem bisect_left_le (l : List ℚ) (x : ℚ) : bisect_left l x ≤ l.length :=
  (List.takeWhile_sublist _).length_le

theorem bisect_right_le (l : List ℚ) (x : ℚ) : bisect_right l x ≤ l.length :=
  (List.takeWhile_sublist _).length_le

/-- A successful `find_ge` returns the leftmost index whose sample is
`≥ x`: everything before it is `< x` and the sample there is `≥ x`. -/
theorem find_ge_ok (l : List ℚ) (x : ℚ) (i : Nat) (h : find_ge l x = .ok i) :
    i = bisect_left l x ∧ i < l.length ∧
    (∀ j, j < i → l.getD j 0 < x) ∧ x ≤ l.getD i 0 := by
  simp only [find_ge] at h
  split at h
  case isTrue hne =>
    injection h with h2
    subst h2
    have hlt : bisect_left l x < l.length := lt_of_le_of_ne (bisect_left_le l x) hne
    refine ⟨rfl, hlt, ?_, ?_⟩
    · intro j hj
      have := (takeWhile_spec (fun v => decide (v < x)) l).1 j hj
      simpa using this
    · have := (takeWhile_spec (fun v => decide (v < x)) l).2 hlt
      simpa [not_lt] using this
  case isFalse _ => exact Except.noConfusion h

/-- A successful `find_le` returns the rightmost index whose sample is
`≤ x`: the sample there is `≤ x` and (in a sorted list) everything after
it is `> x`. -/
theorem find_le_ok (l : List ℚ) (x : ℚ) (s : Nat) (h : find_le l x = .ok s) :
    s + 1 = bisect_right l x ∧ s < l.length ∧ l.getD s 0 ≤ x ∧
    (l.Pairwise (· ≤ ·) → ∀ j, s < j → j < l.length → x < l.getD j 0) := by
  simp only [find_le] at h
  split at h
  case isTrue hne =>
    injection h with h2
    subst h2
    have hpos : 0 < bisect_right l x := Nat.pos_of_ne_zero hne
    have hble := bisect_right_le l x
    have hsucc : (bisect_right l x - 1) + 1 = bisect_right l x := Nat.succ_pred_eq_of_pos hpos
    have hslt : bisect_right l x - 1 < l.length :=
      lt_of_lt_of_le (Nat.sub_lt hpos Nat.one_pos) hble
    refine ⟨hsucc, hslt, ?_, ?_⟩
    · have := (takeWhile_spec (fun v => decide (v ≤ x)) l).1 (bisect_right l x - 1)
        (Nat.sub_lt hpos Nat.one_pos)
      simpa using this
    · intro hs j hj1 hj2
      have hjge : bisect_right l x ≤ j := by omega
      by_cases hbr : bisect_right l x < l.length
      · have hfail := (takeWhile_spec (fun v => decide (v ≤ x)) l).2 hbr
        have hxlt : x < l.getD (bisect_right l x) 0 := by simpa [not_le] using hfail
        exact lt_of_lt_of_le hxlt (sorted_getD_le l hs _ j hjge hj2)
      · omega
  case isFalse _ => exact Except.noConfusion h

/-- On a sorted list, the Python slice `[bisect_left low : bisect_right high]`
is exactly the sublist of samples in `[low, high]`. -/
theorem slice_filter : ∀ (l : List ℚ), l.Pairwise (· ≤ ·) → ∀ (low high : ℚ),
    pySlice l (bisect_left l low) (bisect_right l high)
      = l.filter (fun v => decide (low ≤ v) && decide (v ≤ high)) := by
  intro l
  induction l with
  | nil => intro _ low high; rfl
  | cons a t ih =>
    intro hs low high
    have hat : ∀ b ∈ t, a ≤ b := (List.pairwise_cons.mp hs).1
    have hts : t.Pairwise (· ≤ ·) := (List.pairwise_cons.mp hs).2
    by_cases hal : a < low
    · by_cases hah : a ≤ high
      · have hbl : bisect_left (a :: t) low = bisect_left t low + 1 := by
          simp [bisect_left, List.takeWhile_cons, hal]
        have hbr : bisect_right (a :: t) high = bisect_right t high + 1 := by
          simp [bisect_right, List.takeWhile_cons, hah]
        rw [hbl, hbr]
        have hps : pySlice (a :: t) (bisect_left t low + 1) (bisect_right t high + 1)
            = pySlice t (bisect_left t low) (bisect_right t high) := by
          simp [pySlice, Nat.succ_sub_succ]
        rw [hps, ih hts low high]
        have hfa : (a :: t).filter (fun v => decide (low ≤ v) && decide (v ≤ high))
            = t.filter (fun v => decide (low ≤ v) && decide (v ≤ high)) := by
          simp [List.filter_cons, not_le.mpr hal]
        rw [hfa]
      · have hbr : bisect_right (a :: t) high = 0 := by
          simp [bisect_right, List.takeWhile_cons, hah]
        rw [hbr]
        have hps : pySlice (a :: t) (bisect_left (a :: t) low) 0 = [] := by
          simp [pySlice, Nat.zero_sub]
        rw [hps]
        symm
        rw [List.filter_eq_nil_iff]
        intro b hb
        rcases List.mem_cons.mp hb with rfl | hbt
        · simp [hah]
        · have hbh : high < b := lt_of_lt_of_le (not_le.mp hah) (hat b hbt)
          simp [not_le.mpr hbh]
    · have hbl : bisect_left (a :: t) low = 0 := by
        simp [bisect_left, List.takeWhile_cons, hal]
      rw [hbl]
      by_cases hah : a ≤ high
      · have hbr : bisect_right (a :: t) high = bisect_right t high + 1 := by
          simp [bisect_right, List.takeWhile_cons, hah]
        rw [hbr]
        have hps : pySlice (a :: t) 0 (bisect_right t high + 1)
            = a :: t.take (bisect_right t high) := by
          simp [pySlice]
        rw [hps]
        have hfa : (a :: t).filter (fun v => decide (low ≤ v) && decide (v ≤ high))
            = a :: t.filter (fun v => decide (low ≤ v) && decide (v ≤ high)) := by
          simp [List.filter_cons, not_lt.mp hal, hah]
        rw [hfa]
        congr 1
        have hbl0 : bisect_left t low = 0 := by
          cases t with
          | nil => rfl
          | cons b t2 =>
            have hnb : ¬ b < low :=
              not_lt.mpr (le_trans (not_lt.mp hal) (hat b (by simp)))
            simp [bisect_left, List.takeWhile_cons, hnb]
        have hiht := ih hts low high
        rw [hbl0] at hiht
        simpa [pySlice] using hiht
      · have hbr : bisect_right (a :: t) high = 0 := by
          simp [bisect_right, List.takeWhile_cons, hah]
        rw [hbr]
        have hps : pySlice (a :: t) 0 0 = [] := by simp [pySlice]
        rw [hps]
        symm
        rw [List.filter_eq_nil_iff]
        intro b hb
        rcases List.mem_cons.mp hb with rfl | hbt
        · simp [hah]
        · have hbh : high < b := lt_of_lt_of_le (not_le.mp hah) (hat b hbt)
          simp [not_le.mpr hbh]

/-- What a successful `anchorLast` returns: a weight list of ones of the
requested (positive) length with 1000 at the last position. -/
theorem anchorLast_ok (n : Nat) (wl : List ℚ) (h : anchorLast n = .ok wl) :
    n ≠ 0 ∧ wl.length = n ∧ wl.getD (n - 1) 0 = 1000 ∧
    ∀ i, i < n - 1 → wl.getD i 0 = 1 := by
  simp only [anchorLast] at h
  split at h
  case isTrue => exact Except.noConfusion h
  case isFalse hn =>
    injection h with h2
    subst h2
    refine ⟨hn, by simp, ?_, ?_⟩
    · have hlt : n - 1 < ((List.replicate n (1 : ℚ)).set (n - 1) 1000).length := by
        simp
        omega
      rw [List.getD_eq_getElem _ _ hlt, List.getElem_set_self]
    · intro i hi
      have hlt : i < ((List.replicate n (1 : ℚ)).set (n - 1) 1000).length := by
        simp
        omega
      rw [List.getD_eq_getElem _ _ hlt, List.getElem_set_ne (by omega), List.getElem_replicate]

/-- What a successful `anchorFirst` returns: ones with 1000 at the head. -/
theorem anchorFirst_ok (n : Nat) (wl : List ℚ) (h : anchorFirst n = .ok wl) :
    n ≠ 0 ∧ wl.length = n ∧ wl.getD 0 0 = 1000 ∧
    ∀ i, 0 < i → i < n → wl.getD i 0 = 1 := by
  simp only [anchorFirst] at h
  split at h
  case isTrue => exact Except.noConfusion h
  case isFalse hn =>
    injection h with h2
    subst h2
    refine ⟨hn, by simp, ?_, ?_⟩
    · have hlt : 0 < ((List.replicate n (1 : ℚ)).set 0 1000).length := by
        simp
        omega
      rw [List.getD_eq_getElem _ _ hlt, List.getElem_set_self]
    · intro i hi1 hi2
      have hlt : i < ((List.replicate n (1 : ℚ)).set 0 1000).length := by
        simp
        omega
      rw [List.getD_eq_getElem _ _ hlt, List.getElem_set_ne (by omega), List.getElem_replicate]

/-- Dissection of a successful `domainFit`: the stored indices come from
`find_ge`/`find_le`, the stored samples are the Python slice
`[start : stop+1]`, and the weights follow the `ndom` rule. -/
theorem domainFit_ok (e : List ℚ) (q : List Cplx) (k nd : Nat) (dom : ℚ × ℚ)
    (f : DomainFit) (h : domainFit e q k nd dom = .ok f) :
    find_ge e dom.1 = .ok f.start ∧
    find_le e dom.2 = .ok f.stop ∧
    f.dom = dom ∧ f.k = k ∧
    f.dom_e0 = pySlice e f.start (f.stop + 1) ∧
    f.dom_corr = pySlice q f.start (f.stop + 1) ∧
    (nd = 1 → ∃ wl, f.w = some wl ∧ anchorLast f.dom_e0.length = .ok wl) ∧
    (nd = 2 → ∃ wl, f.w = some wl ∧ anchorFirst f.dom_e0.length = .ok wl) ∧
    (nd ≠ 1 → nd ≠ 2 → f.w = none) := by
  simp only [domainFit] at h
  obtain ⟨start, hstart, h⟩ := (except_bind_ok _ _ _).mp h
  obtain ⟨stop, hstop, h⟩ := (except_bind_ok _ _ _).mp h
  by_cases h1 : nd = 1
  · subst h1
    rw [if_pos rfl] at h
    obtain ⟨wl, hwl, h⟩ := (except_bind_ok _ _ _).mp h
    obtain ⟨y, hy, hp⟩ := (except_bind_ok _ _ _).mp h
    simp only [pure, Except.pure] at hy
    injection hy with hy2
    subst hy2
    by_cases hch : diffsNonneg (pySlice e start (stop + 1)) = true
    · rw [if_neg (not_not_intro hch)] at hp
      by_cases hmk : k < (pySlice e start (stop + 1)).length
      · rw [if_neg (not_not_intro hmk)] at hp
        simp only [pure, Except.pure] at hp
        injection hp with hp2
        subst hp2
        refine ⟨hstart, hstop, rfl, rfl, rfl, rfl, ?_, ?_, ?_⟩
        · intro _
          exact ⟨wl, rfl, hwl⟩
        · intro hc
          exact absurd hc (by omega)
        · intro hn1 _
          exact absurd rfl hn1
      · rw [if_pos hmk] at hp
        exact Except.noConfusion hp
    · rw [if_pos hch] at hp
      exact Except.noConfusion hp
  · by_cases h2 : nd = 2
    · subst h2
      rw [if_neg h1, if_pos rfl] at h
      obtain ⟨wl, hwl, h⟩ := (except_bind_ok _ _ _).mp h
      obtain ⟨y, hy, hp⟩ := (except_bind_ok _ _ _).mp h
      simp only [pure, Except.pure] at hy
      injection hy with hy2
      subst hy2
      by_cases hch : diffsNonneg (pySlice e start (stop + 1)) = true
      · rw [if_neg (not_not_intro hch)] at hp
        by_cases hmk : k < (pySlice e start (stop + 1)).length
        · rw [if_neg (not_not_intro hmk)] at hp
          simp only [pure, Except.pure] at hp
          injection hp with hp2
          subst hp2
          refine ⟨hstart, hstop, rfl, rfl, rfl, rfl, ?_, ?_, ?_⟩
          · intro hc
            exact absurd hc (by omega)
          · intro _
            exact ⟨wl, rfl, hwl⟩
          · intro _ hn2
            exact absurd rfl hn2
        · rw [if_pos hmk] at hp
          exact Except.noConfusion hp
      · rw [if_pos hch] at hp
        exact Except.noConfusion hp
    · rw [if_neg h1, if_neg h2] at h
      obtain ⟨y, hy, hp⟩ := (except_bind_ok _ _ _).mp h
      simp only [pure, Except.pure] at hy
      injection hy with hy2
      subst hy2
      by_cases hch : diffsNonneg (pySlice e start (stop + 1)) = true
      · rw [if_neg (not_not_intro hch)] at hp
        by_cases hmk : k < (pySlice e start (stop + 1)).length
        · rw [if_neg (not_not_intro hmk)] at hp
          simp only [pure, Except.pure] at hp
          injection hp with hp2
          subst hp2
          exact ⟨hstart, hstop, rfl, rfl, rfl, rfl, fun hc => absurd hc h1,
            fun hc => absurd hc h2, fun _ _ => rfl⟩
        · rw [if_pos hmk] at hp
          exact Except.noConfusion hp
      · rw [if_pos hch] at hp
        exact Except.noConfusion hp

/-- Every fit of a successful `fitDomains` run comes from `domainFit` at
its own domain, with a counter value strictly above the start value. -/
theorem fitDomains_mem (e : List ℚ) (q : List Cplx) (k : Nat) :
    ∀ (doms : List (ℚ × ℚ)) (n : Nat) (fits : List DomainFit),
      fitDomains e q k n doms = .ok fits →
      ∀ f ∈ fits, ∃ nd, n < nd ∧ domainFit e q k nd f.dom = .ok f := by
  intro doms
  induction doms with
  | nil =>
    intro n fits h f hf
    simp only [fitDomains] at h
    injection h with h2
    subst h2
    exact absurd hf (List.not_mem_nil f)
  | cons dom rest ih =>
    intro n fits h f hf
    simp only [fitDomains] at h
    obtain ⟨f1, hf1, h⟩ := (except_bind_ok _ _ _).mp h
    obtain ⟨fs, hfs, hp⟩ := (except_bind_ok _ _ _).mp h
    simp only [pure, Except.pure] at hp
    injection hp with hp2
    subst hp2
    rcases List.mem_cons.mp hf with rfl | hmem
    · have hd := domainFit_ok e q k (n + 1) dom f hf1
      refine ⟨n + 1, Nat.lt_succ_self n, ?_⟩
      rw [hd.2.2.1]
      exact hf1
    · obtain ⟨nd, hnd, hfit⟩ := ih (n + 1) fs hfs f hmem
      exact ⟨nd, lt_trans (Nat.lt_succ_self n) hnd, hfit⟩

/-- Shape of a successful two-domain `fitDomains` run started at 0: the
first domain is fitted with `ndom = 1`, the second with `ndom = 2`. -/
theorem fitDomains_two (e : List ℚ) (q : List Cplx) (k : Nat) (d1 d2 : ℚ × ℚ)
    (fits : List DomainFit) (h : fitDomains e q k 0 [d1, d2] = .ok fits) :
    ∃ f1 f2, fits = [f1, f2] ∧
      domainFit e q k 1 d1 = .ok f1 ∧ domainFit e q k 2 d2 = .ok f2 := by
  simp only [fitDomains] at h
  obtain ⟨f1, hf1, h⟩ := (except_bind_ok _ _ _).mp h
  obtain ⟨fs, hfs, hp⟩ := (except_bind_ok _ _ _).mp h
  obtain ⟨f2, hf2, hfs2⟩ := (except_bind_ok _ _ _).mp hfs
  obtain ⟨fs2, hfs3, hp2⟩ := (except_bind_ok _ _ _).mp hfs2
  injection hfs3 with h3
  subst h3
  simp only [pure, Except.pure] at hp2
  injection hp2 with h4
  subst h4
  simp only [pure, Except.pure] at hp
  injection hp with h5
  subst h5
  exact ⟨f1, f2, rfl, hf1, hf2⟩

/-- With a counter already at 2 or above, every weight produced by the
fitting loop is `None` (uniform weights). -/
theorem fitDomains_w_none (e : List ℚ) (q : List Cplx) (k : Nat) :
    ∀ (doms : List (ℚ × ℚ)) (n : Nat) (fits : List DomainFit),
      2 ≤ n → fitDomains e q k n doms = .ok fits → ∀ f ∈ fits, f.w = none := by
  intro doms
  induction doms with
  | nil =>
    intro n fits _ h f hf
    simp only [fitDomains] at h
    injection h with h2
    subst h2
    exact absurd hf (List.not_mem_nil f)
  | cons dom rest ih =>
    intro n fits hn h f hf
    simp only [fitDomains] at h
    obtain ⟨f1, hf1, h⟩ := (except_bind_ok _ _ _).mp h
    obtain ⟨fs, hfs, hp⟩ := (except_bind_ok _ _ _).mp h
    simp only [pure, Except.pure] at hp
    injection hp with hp2
    subst hp2
    rcases List.mem_cons.mp hf with rfl | hmem
    · exact (domainFit_ok e q k (n + 1) dom f hf1).2.2.2.2.2.2.2.2 (by omega) (by omega)
    · exact ih (n + 1) fs (by omega) hfs f hmem

/-- Dissection of a successful `build_scissors`: the validation loop
passed, and the fits come from the fitting loop over the sorted mesh with
the length-dependent counter start. -/
theorem build_scissors_ok (qpl : QPList) (doms : List (ℚ × ℚ)) (k : Nat) (s : Scissors)
    (h : qpl.build_scissors doms k = .ok s) :
    validateDomains (ravel2 doms) ((qpl.sort_by_e0).qps.map QPState.e0) = .ok () ∧
    fitDomains ((qpl.sort_by_e0).qps.map QPState.e0) (qpl.sort_by_e0).get_qpeme0 k
      (if doms.length = 2 then 0 else 99) doms = .ok s.func_list ∧
    s.domains = doms := by
  simp only [QPList.build_scissors] at h
  obtain ⟨mesh, hmesh, h⟩ := (except_bind_ok _ _ _).mp h
  have hmesh2 : mesh = (qpl.sort_by_e0).qps.map QPState.e0 := by
    have hr : (qpl.sort_by_e0).get_e0mesh
        = .ok ((qpl.sort_by_e0).qps.map QPState.e0) := rfl
    rw [hr] at hmesh
    injection hmesh with h2
    exact h2.symm
  subst hmesh2
  obtain ⟨u, hv, h⟩ := (except_bind_ok _ _ _).mp h
  obtain ⟨fits, hfit, hp⟩ := (except_bind_ok _ _ _).mp h
  simp only [pure, Except.pure] at hp
  injection hp with hp2
  subst hp2
  cases u
  exact ⟨hv, hfit, rfl⟩

/-- C1 counterexample: at `qpl8` with the two domains `doms8` (4 samples
in each, so both spline calls succeed) the code produces weights
`[1, 1, 1, 1000]` for the first domain and `[1000, 1, 1, 1]` for the
second: the anchoring weight 1000 sits on the LAST sample of the first
domain and the FIRST sample of the second — not, as claimed, on the first
sample of the first domain and the last sample of the second (which would
be `[1000, 1, 1, 1]` and `[1, 1, 1, 1000]`). -/
theorem C1_counterexample :
    (qpl8.build_scissors doms8).map (fun s => s.func_list.map DomainFit.w)
      = .ok [some [1, 1, 1, 1000], some [1000, 1, 1, 1]] ∧
    (some [(1 : ℚ), 1, 1, 1000] : Option (List ℚ)) ≠ some [1000, 1, 1, 1] :=
  ⟨by decide, by decide⟩

/-- C1 amended: with exactly two domains, `build_scissors` assigns the
anchoring weight 1000 to the LAST sample of the first domain and to the
FIRST sample of the second domain (all other samples weight 1); with a
number of domains different from two it passes `w = None` (uniform
weights) for every domain. -/
theorem C1_weights (qpl : QPList) (doms : List (ℚ × ℚ)) (k : Nat) (s : Scissors)
    (h : qpl.build_scissors doms k = .ok s) :
    (∀ d1 d2, doms = [d1, d2] →
      ∃ f1 f2, s.func_list = [f1, f2] ∧
        (∃ w1, f1.w = some w1 ∧ w1.length = f1.dom_e0.length ∧ 0 < w1.length ∧
          w1.getD (w1.length - 1) 0 = 1000 ∧ ∀ i, i < w1.length - 1 → w1.getD i 0 = 1) ∧
        (∃ w2, f2.w = some w2 ∧ w2.length = f2.dom_e0.length ∧ 0 < w2.length ∧
          w2.getD 0 0 = 1000 ∧ ∀ i, 0 < i → i < w2.length → w2.getD i 0 = 1)) ∧
    (doms.length ≠ 2 → ∀ f ∈ s.func_list, f.w = none) := by
  obtain ⟨hv, hfit, hdom⟩ := build_scissors_ok qpl doms k s h
  constructor
  · intro d1 d2 hd
    subst hd
    have hfit0 : fitDomains ((qpl.sort_by_e0).qps.map QPState.e0)
        (qpl.sort_by_e0).get_qpeme0 k 0 [d1, d2] = .ok s.func_list := by
      simpa using hfit
    obtain ⟨f1, f2, hfl, h1, h2⟩ := fitDomains_two _ _ _ _ _ _ hfit0
    have hd1 := domainFit_ok _ _ _ _ _ _ h1
    have hd2 := domainFit_ok _ _ _ _ _ _ h2
    obtain ⟨w1, hw1, ha1⟩ := hd1.2.2.2.2.2.2.1 rfl
    obtain ⟨w2, hw2, ha2⟩ := hd2.2.2.2.2.2.2.2.1 rfl
    have ha1s := anchorLast_ok _ _ ha1
    have ha2s := anchorFirst_ok _ _ ha2
    refine ⟨f1, f2, hfl, ⟨w1, hw1, ha1s.2.1, ?_, ?_, ?_⟩, ⟨w2, hw2, ha2s.2.1, ?_, ?_, ?_⟩⟩
    · rw [ha1s.2.1]
      have := ha1s.1
      omega
    · rw [ha1s.2.1]
      exact ha1s.2.2.1
    · intro i hi
      rw [ha1s.2.1] at hi
      exact ha1s.2.2.2 i hi
    · rw [ha2s.2.1]
      have := ha2s.1
      omega
    · exact ha2s.2.2.1
    · intro i hi1 hi2
      rw [ha2s.2.1] at hi2
      exact ha2s.2.2.2 i hi1 hi2
  · intro hne
    have hfit99 : fitDomains ((qpl.sort_by_e0).qps.map QPState.e0)
        (qpl.sort_by_e0).get_qpeme0 k 99 doms = .ok s.func_list := by
      simpa [hne] using hfit
    exact fun f hf => fitDomains_w_none _ _ _ doms 99 s.func_list (by omega) hfit99 f hf

/-- Witness for the C1 amended theorem at `qpl8` / `doms8`, whose
scissors evaluate to `sciss8`. -/
theorem C1_witness :
    (∀ d1 d2, doms8 = [d1, d2] →
      ∃ f1 f2, sciss8.func_list = [f1, f2] ∧
        (∃ w1, f1.w = some w1 ∧ w1.length = f1.dom_e0.length ∧ 0 < w1.length ∧
          w1.getD (w1.length - 1) 0 = 1000 ∧ ∀ i, i < w1.length - 1 → w1.getD i 0 = 1) ∧
        (∃ w2, f2.w = some w2 ∧ w2.length = f2.dom_e0.length ∧ 0 < w2.length ∧
          w2.getD 0 0 = 1000 ∧ ∀ i, 0 < i → i < w2.length → w2.getD i 0 = 1)) ∧
    (doms8.length ≠ 2 → ∀ f ∈ sciss8.func_list, f.w = none) :=
  C1_weights qpl8 doms8 3 sciss8 (by decide)

/-- C2 counterexample: at `qpl8` (sorted mesh `[0, 10, ..., 70]`, both
spline calls succeeding) with the first domain `[0, 35]`, the code fits
the samples `[0, 10, 20, 30]` (leftmost sample `≥ 0` through rightmost
sample `≤ 35`), while the claim's rule — greatest sample `≤ low` as
start, least sample `≥ high` as end — selects indices 0 through 4,
i.e. the samples `[0, 10, 20, 30, 40]`. -/
theorem C2_counterexample :
    (qpl8.build_scissors doms8).map (fun s => s.func_list.map DomainFit.dom_e0)
      = .ok [[0, 10, 20, 30], [40, 50, 60, 70]] ∧
    spec_start_index ((qpl8.sort_by_e0).qps.map QPState.e0) 0 = some 0 ∧
    spec_stop_index ((qpl8.sort_by_e0).qps.map QPState.e0) 35 = some 4 ∧
    pySlice ((qpl8.sort_by_e0).qps.map QPState.e0) 0 (4 + 1) ≠ [0, 10, 20, 30] :=
  ⟨by decide, by decide, by decide, by decide⟩

/-- C2 amended: for every domain of a successful `build_scissors`, the
fitted samples are the contiguous run of e0-sorted samples with e0 in
`[low, high]`; the start index is the LEAST sample `≥ low` (leftmost
insertion point) and the stop index is the GREATEST sample `≤ high`. -/
theorem C2_samples (qpl : QPList) (doms : List (ℚ × ℚ)) (k : Nat) (s : Scissors)
    (h : qpl.build_scissors doms k = .ok s) :
    ∀ f ∈ s.func_list,
      f.dom_e0 = ((qpl.sort_by_e0).qps.map QPState.e0).filter
          (fun v => decide (f.dom.1 ≤ v) && decide (v ≤ f.dom.2)) ∧
      f.start < ((qpl.sort_by_e0).qps.map QPState.e0).length ∧
      f.dom.1 ≤ ((qpl.sort_by_e0).qps.map QPState.e0).getD f.start 0 ∧
      (∀ j, j < f.start → ((qpl.sort_by_e0).qps.map QPState.e0).getD j 0 < f.dom.1) ∧
      f.stop < ((qpl.sort_by_e0).qps.map QPState.e0).length ∧
      ((qpl.sort_by_e0).qps.map QPState.e0).getD f.stop 0 ≤ f.dom.2 ∧
      (∀ j, f.stop < j → j < ((qpl.sort_by_e0).qps.map QPState.e0).length →
        f.dom.2 < ((qpl.sort_by_e0).qps.map QPState.e0).getD j 0) := by
  intro f hf
  obtain ⟨hv, hfit, hdom⟩ := build_scissors_ok qpl doms k s h
  obtain ⟨nd, hnd, hdf⟩ := fitDomains_mem _ _ _ doms _ _ hfit f hf
  have hd := domainFit_ok _ _ _ _ _ _ hdf
  have hms : ((qpl.sort_by_e0).qps.map QPState.e0).Pairwise (· ≤ ·) := mesh_sorted qpl
  have hge := find_ge_ok _ f.dom.1 f.start hd.1
  have hle := find_le_ok _ f.dom.2 f.stop hd.2.1
  refine ⟨?_, hge.2.1, hge.2.2.2, hge.2.2.1, hle.2.1, hle.2.2.1, hle.2.2.2 hms⟩
  rw [hd.2.2.2.2.1, hge.1, hle.1]
  exact slice_filter _ hms f.dom.1 f.dom.2

/-- Witness for the C2 amended theorem: the first fitted domain of
`sciss8` (built from `qpl8` over `doms8`; the fit succeeds: 4 samples,
k = 3). -/
theorem C2_witness :
    (⟨(0, 35), 0, 3, [0, 10, 20, 30], [⟨1, 0⟩, ⟨2, 0⟩, ⟨2, 0⟩, ⟨3, 0⟩], some [1, 1, 1, 1000], 3⟩ : DomainFit).dom_e0
        = ((qpl8.sort_by_e0).qps.map QPState.e0).filter
          (fun v => decide ((⟨(0, 35), 0, 3, [0, 10, 20, 30], [⟨1, 0⟩, ⟨2, 0⟩, ⟨2, 0⟩, ⟨3, 0⟩], some [1, 1, 1, 1000], 3⟩ : DomainFit).dom.1 ≤ v) &&
            decide (v ≤ (⟨(0, 35), 0, 3, [0, 10, 20, 30], [⟨1, 0⟩, ⟨2, 0⟩, ⟨2, 0⟩, ⟨3, 0⟩], some [1, 1, 1, 1000], 3⟩ : DomainFit).dom.2)) ∧
    (⟨(0, 35), 0, 3, [0, 10, 20, 30], [⟨1, 0⟩, ⟨2, 0⟩, ⟨2, 0⟩, ⟨3, 0⟩], some [1, 1, 1, 1000], 3⟩ : DomainFit).start
        < ((qpl8.sort_by_e0).qps.map QPState.e0).length ∧
    (⟨(0, 35), 0, 3, [0, 10, 20, 30], [⟨1, 0⟩, ⟨2, 0⟩, ⟨2, 0⟩, ⟨3, 0⟩], some [1, 1, 1, 1000], 3⟩ : DomainFit).dom.1
        ≤ ((qpl8.sort_by_e0).qps.map QPState.e0).getD
            (⟨(0, 35), 0, 3, [0, 10, 20, 30], [⟨1, 0⟩, ⟨2, 0⟩, ⟨2, 0⟩, ⟨3, 0⟩], some [1, 1, 1, 1000], 3⟩ : DomainFit).start 0 ∧
    (∀ j, j < (⟨(0, 35), 0, 3, [0, 10, 20, 30], [⟨1, 0⟩, ⟨2, 0⟩, ⟨2, 0⟩, ⟨3, 0⟩], some [1, 1, 1, 1000], 3⟩ : DomainFit).start →
      ((qpl8.sort_by_e0).qps.map QPState.e0).getD j 0
        < (⟨(0, 35), 0, 3, [0, 10, 20, 30], [⟨1, 0⟩, ⟨2, 0⟩, ⟨2, 0⟩, ⟨3, 0⟩], some [1, 1, 1, 1000], 3⟩ : DomainFit).dom.1) ∧
    (⟨(0, 35), 0, 3, [0, 10, 20, 30], [⟨1, 0⟩, ⟨2, 0⟩, ⟨2, 0⟩, ⟨3, 0⟩], some [1, 1, 1, 1000], 3⟩ : DomainFit).stop
        < ((qpl8.sort_by_e0).qps.map QPState.e0).length ∧
    ((qpl8.sort_by_e0).qps.map QPState.e0).getD
        (⟨(0, 35), 0, 3, [0, 10, 20, 30], [⟨1, 0⟩, ⟨2, 0⟩, ⟨2, 0⟩, ⟨3, 0⟩], some [1, 1, 1, 1000], 3⟩ : DomainFit).stop 0
      ≤ (⟨(0, 35), 0, 3, [0, 10, 20, 30], [⟨1, 0⟩, ⟨2, 0⟩, ⟨2, 0⟩, ⟨3, 0⟩], some [1, 1, 1, 1000], 3⟩ : DomainFit).dom.2 ∧
    (∀ j, (⟨(0, 35), 0, 3, [0, 10, 20, 30], [⟨1, 0⟩, ⟨2, 0⟩, ⟨2, 0⟩, ⟨3, 0⟩], some [1, 1, 1, 1000], 3⟩ : DomainFit).stop < j →
      j < ((qpl8.sort_by_e0).qps.map QPState.e0).length →
      (⟨(0, 35), 0, 3, [0, 10, 20, 30], [⟨1, 0⟩, ⟨2, 0⟩, ⟨2, 0⟩, ⟨3, 0⟩], some [1, 1, 1, 1000], 3⟩ : DomainFit).dom.2
        < ((qpl8.sort_by_e0).qps.map QPState.e0).getD j 0) :=
  C2_samples qpl8 doms8 3 sciss8 (by decide)
    ⟨(0, 35), 0, 3, [0, 10, 20, 30], [⟨1, 0⟩, ⟨2, 0⟩, ⟨2, 0⟩, ⟨3, 0⟩], some [1, 1, 1, 1000], 3⟩ (by decide)

theorem except_ok_bind {ε α β : Type} (a : α) (f : α → Except ε β) :
    ((Except.ok a : Except ε α) >>= f) = f a := rfl

theorem head?_getD (l : List ℚ) (h : l ≠ []) : l.head? = some (l.getD 0 0) := by
  cases l with
  | nil => exact absurd rfl h
  | cons a t => rfl

theorem getLast?_getD (l : List ℚ) (h : l ≠ []) :
    l.getLast? = some (l.getD (l.length - 1) 0) := by
  have hpos : 0 < l.length := List.length_pos.mpr h
  have hlt : l.length - 1 < l.length := Nat.sub_lt hpos Nat.one_pos
  rw [List.getLast?_eq_getElem?, List.getElem?_eq_getElem hlt, List.getD_eq_getElem l 0 hlt]

theorem ravel2_length (ds : List (ℚ × ℚ)) : (ravel2 ds).length = 2 * ds.length := by
  induction ds with
  | nil => rfl
  | cons d rest ih => simp [ravel2, ih]; omega

/-- If the validation loop succeeds, every single index check succeeded. -/
theorem validateFrom_ok_all (dflat mesh : List ℚ) :
    ∀ (n i : Nat), validateFrom dflat mesh i n = .ok () →
      ∀ j, i ≤ j → j < i + n → domCheckAt dflat mesh j = .ok () := by
  intro n
  induction n with
  | zero => intro i _ j _ hjn; omega
  | succ n ih =>
    intro i h j hij hjn
    simp only [validateFrom] at h
    obtain ⟨u, hu, h2⟩ := (except_bind_ok _ _ _).mp h
    cases u
    rcases eq_or_lt_of_le hij with rfl | hlt
    · exact hu
    · exact ih (i + 1) h2 j hlt (by omega)

/-- A failing validation loop fails at some index check, with the same
error. -/
theorem validateFrom_err (dflat mesh : List ℚ) :
    ∀ (n i : Nat) (e : PyErr), validateFrom dflat mesh i n = .error e →
      ∃ j, i ≤ j ∧ j < i + n ∧ domCheckAt dflat mesh j = .error e := by
  intro n
  induction n with
  | zero => intro i e h; exact absurd h (by simp [validateFrom])
  | succ n ih =>
    intro i e h
    simp only [validateFrom] at h
    rcases (except_bind_err _ _ _).mp h with herr | ⟨u, _, h2⟩
    · exact ⟨i, le_refl i, by omega, herr⟩
    · cases u
      obtain ⟨j, hj1, hj2, hj3⟩ := ih (i + 1) e h2
      exact ⟨j, by omega, by omega, hj3⟩

/-- A successful index check refutes the boundary violation it guards. -/
theorem domCheckAt_ok (dflat mesh : List ℚ) (idx : Nat) (hm : mesh ≠ [])
    (h : domCheckAt dflat mesh idx = .ok ()) :
    (idx = 0 → ¬ mesh.getD 0 0 < dflat.getD 0 0) ∧
    (idx = dflat.length - 1 → ¬ dflat.getD idx 0 < mesh.getD (mesh.length - 1) 0) ∧
    (idx ≠ dflat.length - 1 → ¬ dflat.getD (idx + 1) 0 < dflat.getD idx 0) := by
  simp only [domCheckAt] at h
  obtain ⟨u1, h1, h⟩ := (except_bind_ok _ _ _).mp h
  cases u1
  obtain ⟨u2, h2, h⟩ := (except_bind_ok _ _ _).mp h
  cases u2
  obtain ⟨u3, h3, h4⟩ := (except_bind_ok _ _ _).mp h
  cases u3
  refine ⟨?_, ?_, ?_⟩
  · intro h0 hbad
    subst h0
    rw [if_pos rfl] at h1
    simp only [head?_getD mesh hm] at h1
    rw [if_pos hbad] at h1
    exact Except.noConfusion h1
  · intro hl hbad
    rw [if_pos hl] at h2
    simp only [getLast?_getD mesh hm] at h2
    rw [if_pos hbad] at h2
    exact Except.noConfusion h2
  · intro hne hbad
    rw [if_pos ⟨hne, hbad⟩] at h3
    exact Except.noConfusion h3

/-- A failing index check is one of the three `ValueError`s, each implying
its boundary violation (the `IndexError` case needs an empty mesh). -/
theorem domCheckAt_err (dflat mesh : List ℚ) (idx : Nat) (hm : mesh ≠ []) (e : PyErr)
    (h : domCheckAt dflat mesh idx = .error e) (hidx : idx < dflat.length) :
    (e = .valueError msg_min_not_included ∧ idx = 0 ∧
      mesh.getD 0 0 < dflat.getD 0 0) ∨
    (e = .valueError msg_max_not_included ∧ idx = dflat.length - 1 ∧
      dflat.getD idx 0 < mesh.getD (mesh.length - 1) 0) ∨
    (e = .valueError msg_increasing ∧ ∃ i, i + 1 < dflat.length ∧
      dflat.getD (i + 1) 0 < dflat.getD i 0) := by
  simp only [domCheckAt] at h
  rcases (except_bind_err _ _ _).mp h with h1 | ⟨u1, _, h⟩
  · by_cases h0 : idx = 0
    · subst h0
      rw [if_pos rfl] at h1
      simp only [head?_getD mesh hm] at h1
      by_cases hbad : mesh.getD 0 0 < dflat.getD 0 0
      · rw [if_pos hbad] at h1
        injection h1 with he
        exact Or.inl ⟨he.symm, rfl, hbad⟩
      · rw [if_neg hbad] at h1
        exact Except.noConfusion h1
    · rw [if_neg h0] at h1
      exact Except.noConfusion h1
  · cases u1
    rcases (except_bind_err _ _ _).mp h with h2 | ⟨u2, _, h⟩
    · by_cases hl : idx = dflat.length - 1
      · rw [if_pos hl] at h2
        simp only [getLast?_getD mesh hm] at h2
        by_cases hbad : dflat.getD idx 0 < mesh.getD (mesh.length - 1) 0
        · rw [if_pos hbad] at h2
          injection h2 with he
          exact Or.inr (Or.inl ⟨he.symm, hl, hbad⟩)
        · rw [if_neg hbad] at h2
          exact Except.noConfusion h2
      · rw [if_neg hl] at h2
        exact Except.noConfusion h2
    · cases u2
      rcases (except_bind_err _ _ _).mp h with h3 | ⟨u3, _, h4⟩
      · by_cases hc : idx ≠ dflat.length - 1 ∧ dflat.getD (idx + 1) 0 < dflat.getD idx 0
        · rw [if_pos hc] at h3
          injection h3 with he
          refine Or.inr (Or.inr ⟨he.symm, idx, ?_, hc.2⟩)
          have := hc.1
          omega
        · rw [if_neg hc] at h3
          exact Except.noConfusion h3
      · cases u3
        by_cases hc : idx = dflat.length - 1 ∧ dflat.getD idx 0 < dflat.getD (idx - 1) 0
        · rw [if_pos hc] at h4
          injection h4 with he
          rcases Nat.eq_zero_or_pos idx with rfl | hpos
          · exact absurd hc.2 (lt_irrefl _)
          · refine Or.inr (Or.inr ⟨he.symm, idx - 1, by omega, ?_⟩)
            rw [Nat.sub_add_cancel hpos]
            exact hc.2
        · rw [if_neg hc] at h4
          exact Except.noConfusion h4

/-- C4: whenever the first flattened boundary lies above the minimum
sample e0 (the head of the sorted mesh), or the last boundary lies below
the maximum sample e0 (the last of the sorted mesh), or a consecutive
flattened pair is strictly decreasing, `build_scissors` raises
`ValueError` before any fitting, and the message identifies which
boundary check failed. -/
theorem C4_domain_validation (qpl : QPList) (doms : List (ℚ × ℚ)) (k : Nat)
    (hq : qpl.qps ≠ []) (hd : doms ≠ [])
    (hbad :
      ((qpl.sort_by_e0).qps.map QPState.e0).getD 0 0 < (ravel2 doms).getD 0 0 ∨
      (ravel2 doms).getD ((ravel2 doms).length - 1) 0
        < ((qpl.sort_by_e0).qps.map QPState.e0).getD
            (((qpl.sort_by_e0).qps.map QPState.e0).length - 1) 0 ∨
      ∃ i, i + 1 < (ravel2 doms).length ∧
        (ravel2 doms).getD (i + 1) 0 < (ravel2 doms).getD i 0) :
    ∃ m, qpl.build_scissors doms k = .error (.valueError m) ∧
      (m = msg_min_not_included ∨ m = msg_max_not_included ∨ m = msg_increasing) ∧
      (m = msg_min_not_included →
        ((qpl.sort_by_e0).qps.map QPState.e0).getD 0 0 < (ravel2 doms).getD 0 0) ∧
      (m = msg_max_not_included →
        (ravel2 doms).getD ((ravel2 doms).length - 1) 0
          < ((qpl.sort_by_e0).qps.map QPState.e0).getD
              (((qpl.sort_by_e0).qps.map QPState.e0).length - 1) 0) ∧
      (m = msg_increasing →
        ∃ i, i + 1 < (ravel2 doms).length ∧
          (ravel2 doms).getD (i + 1) 0 < (ravel2 doms).getD i 0) := by
  have hm : ((qpl.sort_by_e0).qps.map QPState.e0) ≠ [] := by
    intro hnil
    apply hq
    have hlen : ((qpl.sort_by_e0).qps.map QPState.e0).length = 0 := by rw [hnil]; rfl
    rw [List.length_map] at hlen
    have hq2 : (qpl.sort_by_e0).qps = List.insertionSort qpLE qpl.qps := rfl
    rw [hq2] at hlen
    have hpl := (List.perm_insertionSort qpLE qpl.qps).length_eq
    exact List.eq_nil_of_length_eq_zero (by omega)
  have hdl : 0 < doms.length := List.length_pos.mpr hd
  have hrl := ravel2_length doms
  have hnotok : validateDomains (ravel2 doms) ((qpl.sort_by_e0).qps.map QPState.e0)
      ≠ .ok () := by
    intro hok
    have hall := validateFrom_ok_all (ravel2 doms) _ (ravel2 doms).length 0 hok
    rcases hbad with hb1 | hb2 | ⟨i, hi1, hi2⟩
    · have h0 := domCheckAt_ok _ _ 0 hm (hall 0 (le_refl 0) (by omega))
      exact h0.1 rfl hb1
    · have h0 := domCheckAt_ok _ _ _ hm (hall ((ravel2 doms).length - 1) (by omega) (by omega))
      exact h0.2.1 rfl hb2
    · have h0 := domCheckAt_ok _ _ _ hm (hall i (by omega) (by omega))
      exact h0.2.2 (by omega) hi2
  obtain ⟨e, he⟩ : ∃ e, validateDomains (ravel2 doms) ((qpl.sort_by_e0).qps.map QPState.e0)
      = .error e := by
    cases hv : validateDomains (ravel2 doms) ((qpl.sort_by_e0).qps.map QPState.e0) with
    | ok u => cases u; exact absurd hv hnotok
    | error e => exact ⟨e, rfl⟩
  obtain ⟨j, hj1, hj2, hj3⟩ := validateFrom_err _ _ _ 0 e he
  have hjlt : j < (ravel2 doms).length := by omega
  have hbuild : qpl.build_scissors doms k = .error e := by
    simp only [QPList.build_scissors]
    rw [show (qpl.sort_by_e0).get_e0mesh
        = (Except.ok ((qpl.sort_by_e0).qps.map QPState.e0) : Except PyErr (List ℚ)) from rfl]
    rw [except_ok_bind]
    rw [he]
    exact except_err_bind _ _
  rcases domCheckAt_err _ _ j hm e hj3 hjlt with ⟨he1, _, hb⟩ | ⟨he1, hl, hb⟩ | ⟨he1, hex⟩
  · subst he1
    refine ⟨msg_min_not_included, hbuild, Or.inl rfl, fun _ => hb, ?_, ?_⟩
    · intro hmeq
      exact absurd hmeq (by decide)
    · intro hmeq
      exact absurd hmeq (by decide)
  · subst he1
    rw [hl] at hb
    refine ⟨msg_max_not_included, hbuild, Or.inr (Or.inl rfl), ?_, fun _ => hb, ?_⟩
    · intro hmeq
      exact absurd hmeq (by decide)
    · intro hmeq
      exact absurd hmeq (by decide)
  · subst he1
    refine ⟨msg_increasing, hbuild, Or.inr (Or.inr rfl), ?_, ?_, fun _ => hex⟩
    · intro hmeq
      exact absurd hmeq (by decide)
    · intro hmeq
      exact absurd hmeq (by decide)

/-- Witness for C4 at `qpl4` with `domsBad = [(10, 30)]`: the first
boundary (10) lies above the minimum sample e0 (0), so `build_scissors`
fails with the min-boundary `ValueError`. -/
theorem C4_witness :
    ∃ m, qpl4.build_scissors domsBad 3 = .error (.valueError m) ∧
      (m = msg_min_not_included ∨ m = msg_max_not_included ∨ m = msg_increasing) ∧
      (m = msg_min_not_included →
        ((qpl4.sort_by_e0).qps.map QPState.e0).getD 0 0 < (ravel2 domsBad).getD 0 0) ∧
      (m = msg_max_not_included →
        (ravel2 domsBad).getD ((ravel2 domsBad).length - 1) 0
          < ((qpl4.sort_by_e0).qps.map QPState.e0).getD
              (((qpl4.sort_by_e0).qps.map QPState.e0).length - 1) 0) ∧
      (m = msg_increasing →
        ∃ i, i + 1 < (ravel2 domsBad).length ∧
          (ravel2 domsBad).getD (i + 1) 0 < (ravel2 domsBad).getD i 0) :=
  C4_domain_validation qpl4 domsBad 3 (by decide) (by decide) (Or.inl (by decide))
